import Mathlib

/-!
Shallow embedding of the myinputmask plugin (src/InputMask.js) and proofs
about its masking engine and key-event handlers.

JavaScript strings are modelled as `List Char`; the loosely typed values
stored in a field's data set or in the constructor configuration (`strict`,
`autoinit`) are modelled by `JSVal`.  A character-class regular expression
(the `pattern` entry) is modelled by the `Char → Bool` predicate it denotes;
`new RegExp(p).test(s)` for a character class holds iff some character of
`s` is in the class.
-/

namespace MyInputMask

/-- Model of a loosely typed JavaScript value as stored in configuration and
in an element's data set: `undefined`, a boolean, or a string. -/
inductive JSVal where
  | undef : JSVal
  | bool (b : Bool) : JSVal
  | str (s : String) : JSVal
  deriving DecidableEq, Repr

/-- JavaScript truthiness for the modelled values. -/
def truthy : JSVal → Bool
  | .undef => false
  | .bool b => b
  | .str s => s ≠ ""

/-- JavaScript `a || b` on modelled values. -/
def jsOr (a b : JSVal) : JSVal := if truthy a then a else b

/-- A field's data set (`elem.dataset` respectively an `input_def` record):
the `mask`, `pattern` and `strict` entries, before or after default filling. -/
structure FieldData where
  mask : JSVal
  pattern : JSVal
  strict : JSVal
  deriving DecidableEq

/-- getDefaultData (InputMask.js lines 39-45): fills each falsy entry with the
default (`data.mask = data.mask || ""`, `data.pattern = data.pattern || "."`,
`data.strict = data.strict || true`); the strict default is the boolean true. -/
def getDefaultData (d : FieldData) : FieldData :=
  { mask := jsOr d.mask (.str ""), pattern := jsOr d.pattern (.str "."),
    strict := jsOr d.strict (.bool true) }

/-- Constructor line 24 of InputMask.js: `var autoinit = config.autoinit || true;`. -/
def initAutoinit (configAutoinit : JSVal) : JSVal := jsOr configAutoinit (.bool true)

/-- JavaScript `s[i]` character access: `some` character when in range,
`none` (undefined) otherwise. -/
def charAt (s : List Char) (i : Nat) : Option Char := s[i]?

/-- JavaScript `s[i]` character access at a possibly negative index. -/
def charAtZ (s : List Char) (i : Int) : Option Char :=
  if i < 0 then none else charAt s i.toNat

/-- Model of `new RegExp(p).test(s)` for a character class `p`: true iff some
character of `s` belongs to the class. -/
def regexTest (p : Char → Bool) (s : String) : Bool := s.data.any p

/-- The character class `[0-9]` used by the phone-number example. -/
def digitTest (c : Char) : Bool := decide ('0' ≤ c) && decide (c ≤ '9')

/-- Number of placeholder (fill-symbol) positions of a mask template. -/
def countFills (mask : List Char) (fill : Char) : Nat :=
  (mask.filter (fun c => decide (c = fill))).length

/-- Number of literal separators of a mask template; this is the count that
the dead non-strict loop of maskString (lines 309-311) would compute. -/
def countSeps (mask : List Char) (fill : Char) : Nat :=
  (mask.filter (fun c => decide (c ≠ fill))).length

/-- Main loop of maskString (InputMask.js lines 313-329).  One unit of fuel
per iteration of the `for` loop, whose bound is
`max(string.length, mask.length) + offset`; state `i` (loop index),
`mask_count` and `head` as in the source.  The source's local `strict` is
always true (see `maskString`), so the break condition
`(strict && i >= mask.length) || (i >= string.length + mask_count)` is
modelled with its first disjunct unconditional. -/
def maskGo (mask : List Char) (fill : Char) (s : List Char) :
    Nat → Nat → Nat → Nat → List Char
  | 0, _, _, _ => []
  | fuel + 1, i, mask_count, head =>
    if mask.length ≤ i ∨ s.length + mask_count ≤ i then
      []
    else
      match charAt mask i with
      | none => []
      | some mc =>
        if mc ≠ fill then
          mc :: maskGo mask fill s fuel (i + 1) (mask_count + 1) head
        else
          match charAt s head with
          | some sc => sc :: maskGo mask fill s fuel (i + 1) mask_count (head + 1)
          | none => mc :: maskGo mask fill s fuel (i + 1) (mask_count + 1) (head + 1)

/-- maskString (InputMask.js lines 295-332).  The source declares a fresh
local `var strict;` and then assigns
`strict = that.UNDEF === typeof strict ? true : strict`, so the local is
always true and the field's strict entry (`strictData`, i.e. `data.strict`)
is never consulted; consequently the separator-count loop of lines 309-311,
which requires the local to be false, never runs and `offset` stays 0. -/
def maskString (mask : List Char) (fill : Char) (strictData : JSVal)
    (s : List Char) : List Char :=
  let strictLocal : Bool := true
  let offset : Nat := if strictLocal then 0 else countSeps mask fill
  maskGo mask fill s (max s.length mask.length + offset) 0 0 0

/-- Main loop of getUnmaskedValue (InputMask.js lines 396-407).  One unit of
fuel per iteration of the `for` loop, whose bound is
`max(string.length, mask.length)`; the loop breaks at `i >= string.length`
(modelled by `charAt s i = none`) and at `i >= mask.length`. -/
def unmaskGo (mask : List Char) (p : Char → Bool) (s : List Char) :
    Nat → Nat → List Char
  | 0, _ => []
  | fuel + 1, i =>
    match charAt s i with
    | none => []
    | some c =>
      if i < mask.length then
        (if p c then [c] else []) ++ unmaskGo mask p s fuel (i + 1)
      else []

/-- getUnmaskedValue (InputMask.js lines 389-414): keeps the pattern-matching
characters among the first mask-length characters of the value; when the
field's strict entry (defaulted to the boolean true if undefined) is not the
string "true", it appends the slice of the value beyond the mask length. -/
def getUnmaskedValue (mask : List Char) (p : Char → Bool) (strictData : JSVal)
    (s : List Char) : List Char :=
  let strict : JSVal := match strictData with | .undef => JSVal.bool true | v => v
  unmaskGo mask p s (max s.length mask.length) 0 ++
    (if strict ≠ JSVal.str "true" then s.drop mask.length else [])

/-- NAV_KEYS (InputMask.js lines 491-492): keys that bypass the pattern and
strict checks. -/
def navKeys : List String :=
  ["Shift", "Control", "Home", "End", "CapsLock", "ArrowLeft", "ArrowRight",
    "Delete", "Backspace", "Tab"]

/-- PASTE_KEYS (line 499). -/
def pasteKeys : List String := ["v", "V"]

/-- CUT_KEYS (line 505). -/
def cutKeys : List String := ["x", "X"]

/-- CTRL_FN_KEYS (lines 511-512). -/
def ctrlFnKeys : List String := ["a", "A", "c", "C"] ++ pasteKeys ++ cutKeys

/-- The parts of a KeyboardEvent the handlers read: key identity and the
ctrl/shift modifier flags. -/
structure KeyEvent where
  key : String
  ctrlKey : Bool
  shiftKey : Bool
  deriving DecidableEq

/-- The parts of the input element the handlers read and write: its value and
the caret position (`none` models `getCaretPosition` returning false). -/
structure ElemState where
  value : List Char
  caret : Option Nat
  deriving DecidableEq

/-- The per-field configuration the handlers consult: the mask template, the
fill symbol (`mask_symbol`), the character class of the `pattern` entry, and
the raw `strict` entry. -/
structure MaskCfg where
  mask : List Char
  fill : Char
  pattern : Char → Bool
  strict : JSVal

/-- Observable outcome of a key-down dispatch: the element's value and caret
afterwards, whether preventDefault was called, and the wait flag. -/
structure KDResult where
  value : List Char
  caret : Option Nat
  prevented : Bool
  wait : Bool
  deriving DecidableEq

/-- Observable outcome of a key-up dispatch. -/
structure KUResult where
  value : List Char
  caret : Option Nat
  wait : Bool
  deriving DecidableEq

/-- Backward separator walk shared by the Backspace branch (lines 176-179)
and the ArrowLeft branch (lines 211-214):
`while (caret_pos && mask[caret_pos - 1] !== mask_symbol) caret_pos -= 1`. -/
def bkspWalk (mask : List Char) (fill : Char) : Nat → Nat
  | 0 => 0
  | p + 1 => if charAt mask p ≠ some fill then bkspWalk mask fill p else p + 1

/-- Forward separator walk of the Delete branch (lines 194-197), indexed by
the number of loop iterations still allowed:
`while (mask[caret_pos] !== mask_symbol) caret_pos += 1`.  The source loop
has no boundary check, so it exits only upon finding a fill-symbol position. -/
def delLoopFuel (mask : List Char) (fill : Char) : Nat → Nat → Option Nat
  | 0, _ => none
  | fuel + 1, pos =>
    if charAt mask pos ≠ some fill then delLoopFuel mask fill fuel (pos + 1)
    else some pos

/-- Result of the Delete-branch walk: the least fill-symbol position at or
after `pos`, or `none` when there is none — in which case the source loop
never terminates, because every template read at or beyond the template
length yields undefined, which is never equal to the fill symbol. -/
def delWalk (mask : List Char) (fill : Char) (pos : Nat) : Option Nat :=
  delLoopFuel mask fill (mask.length - pos) pos

/-- Forward walk of the ArrowRight branch (lines 221-224), with bounded fuel:
`while (caret_pos && mask[caret_pos + 1] !== mask_symbol) caret_pos += 1`.
Without a fill symbol strictly after the starting position the source loop
never terminates (`none`). -/
def rightWalkAux (mask : List Char) (fill : Char) : Nat → Nat → Option Nat
  | 0, pos => if pos = 0 then some 0 else none
  | fuel + 1, pos =>
    if pos = 0 then some pos
    else if charAt mask (pos + 1) = some fill then some pos
    else rightWalkAux mask fill fuel (pos + 1)

/-- Result of the ArrowRight walk, `none` when the source loop diverges. -/
def rightWalk (mask : List Char) (fill : Char) (pos : Nat) : Option Nat :=
  rightWalkAux mask fill (mask.length - pos) pos

/-- Separator run collected by the key-up advance loop (lines 269-273):
`while (caret_pos < mask.length && mask[caret_pos] !== mask_symbol)` collect
`mask[caret_pos]`.  Unlike the Delete walk, this loop carries the
`caret_pos < mask.length` boundary check, so it always terminates. -/
def sepRunAux (mask : List Char) (fill : Char) : Nat → Nat → List Char
  | 0, _ => []
  | fuel + 1, pos =>
    match charAt mask pos with
    | none => []
    | some c => if c ≠ fill then c :: sepRunAux mask fill fuel (pos + 1) else []

/-- The separator run of the template starting at `pos`. -/
def sepRun (mask : List Char) (fill : Char) (pos : Nat) : List Char :=
  sepRunAux mask fill (mask.length - pos) pos

/-- onKeyDown (InputMask.js lines 144-230).  `rangeCount` models
`window.getSelection().rangeCount`; `wait` is the re-entrancy latch.  The
result is `none` when the handler does not terminate (the Delete or
ArrowRight separator walk finds no fill symbol ahead).  The `format` calls of
the Backspace and Delete branches (line 125-135) are inlined: the value is
re-masked from its unmasked content and the caret moved to the given
position. -/
def onKeyDown (cfg : MaskCfg) (rangeCount : Nat) (wait : Bool) (ev : KeyEvent)
    (el : ElemState) : Option KDResult :=
  if wait then
    some ⟨el.value, el.caret, true, wait⟩
  else
    let inNav : Bool := decide (ev.key ∈ navKeys)
    let pv : Bool :=
      (!(ev.ctrlKey || ev.shiftKey) && !inNav) &&
        (!(regexTest cfg.pattern ev.key) ||
          (decide (cfg.strict = JSVal.str "true") &&
            decide (cfg.mask.length ≤ el.value.length) && decide (rangeCount ≤ 1)))
    match el.caret with
    | none => some ⟨el.value, none, pv, !inNav⟩
    | some cp =>
      if ev.key = "Backspace" ∧ charAtZ cfg.mask ((cp : Int) - 1) ≠ some cfg.fill then
        let p := bkspWalk cfg.mask cfg.fill cp
        let offset := cp - p
        if offset ≠ 0 then
          let v1 := el.value.take (p - 1) ++ el.value.drop (p + offset)
          let masked := maskString cfg.mask cfg.fill cfg.strict
            (getUnmaskedValue cfg.mask cfg.pattern cfg.strict v1)
          some ⟨masked, some p, true, !inNav⟩
        else
          some ⟨el.value, some cp, pv, !inNav⟩
      else if ev.key = "Delete" ∧ charAt cfg.mask cp ≠ some cfg.fill then
        match delWalk cfg.mask cfg.fill cp with
        | none => none
        | some q =>
          let offset := q - cp
          if offset ≠ 0 then
            let v1 := el.value.take (q - offset) ++ el.value.drop (q + 1)
            let masked := maskString cfg.mask cfg.fill cfg.strict
              (getUnmaskedValue cfg.mask cfg.pattern cfg.strict v1)
            some ⟨masked, some (q - offset), true, !inNav⟩
          else
            some ⟨el.value, some cp, pv, !inNav⟩
      else if ev.key = "ArrowLeft" ∧ charAtZ cfg.mask ((cp : Int) - 1) ≠ some cfg.fill then
        some ⟨el.value, some (bkspWalk cfg.mask cfg.fill cp + 1), pv, !inNav⟩
      else if ev.key = "ArrowRight" ∧ charAt cfg.mask (cp + 1) ≠ some cfg.fill then
        match rightWalk cfg.mask cfg.fill cp with
        | none => none
        | some q => some ⟨el.value, some q, pv, !inNav⟩
      else
        some ⟨el.value, some cp, pv, !inNav⟩

/-- onKeyUp (InputMask.js lines 239-282).  Every return site of the source
sets the wait latch to false (either the explicit early returns of the
ctrl/shift branches or the `wait = false` at line 281 reached by falling
through).  The `format(elem, that.END)` calls are inlined as re-masking the
value and moving the caret to the end of the masked string. -/
def onKeyUp (cfg : MaskCfg) (ev : KeyEvent) (el : ElemState) : KUResult :=
  if ev.ctrlKey then
    if ev.key ∈ ctrlFnKeys then
      if ev.key ∈ pasteKeys then
        let masked := maskString cfg.mask cfg.fill cfg.strict
          (getUnmaskedValue cfg.mask cfg.pattern cfg.strict el.value)
        ⟨masked, some masked.length, false⟩
      else ⟨el.value, el.caret, false⟩
    else ⟨el.value, el.caret, false⟩
  else if ev.shiftKey then
    if ev.key = "Tab" then ⟨el.value, el.caret, false⟩
    else ⟨el.value, el.caret, false⟩
  else
    match el.caret with
    | none => ⟨el.value, el.caret, false⟩
    | some cp =>
      if ev.key ∉ navKeys then
        let vc : List Char × Option Nat :=
          if cp < el.value.length then
            let masked := maskString cfg.mask cfg.fill cfg.strict
              (getUnmaskedValue cfg.mask cfg.pattern cfg.strict el.value)
            (masked, some masked.length)
          else (el.value, el.caret)
        let t := sepRun cfg.mask cfg.fill cp
        if t ≠ [] then ⟨vc.1 ++ t, some (cp + t.length + 1), false⟩
        else ⟨vc.1, vc.2, false⟩
      else ⟨el.value, el.caret, false⟩

/-! Basic facts about the mask engine. -/

/-- Unfolding of maskString: the local strict is always true, so the offset
is 0 and the loop fuel is exactly `max s.length mask.length`. -/
lemma maskString_eq (mask : List Char) (fill : Char) (sd : JSVal) (s : List Char) :
    maskString mask fill sd s = maskGo mask fill s (max s.length mask.length) 0 0 0 := by
  simp [maskString]

/-- Unfolding of getUnmaskedValue when the field's strict entry is the string
"true": no overflow slice is appended. -/
lemma getUnmaskedValue_strict_true (mask : List Char) (p : Char → Bool) (s : List Char) :
    getUnmaskedValue mask p (JSVal.str "true") s
      = unmaskGo mask p s (max s.length mask.length) 0 := by
  simp [getUnmaskedValue]

/-- Each loop iteration of maskString emits one character and the loop breaks
once the index reaches the template length, so at most `mask.length - i`
characters are emitted from state `i`. -/
lemma maskGo_length_le (mask : List Char) (fill : Char) (s : List Char) :
    ∀ fuel i mc hd, (maskGo mask fill s fuel i mc hd).length ≤ mask.length - i := by
  intro fuel
  induction fuel with
  | zero => intro i mc hd; simp [maskGo]
  | succ n ih =>
    intro i mc hd
    simp only [maskGo]
    split
    · simp
    · rename_i hbr
      have hi : i < mask.length := by omega
      split
      · simp
      · rename_i c hc
        split
        · have := ih (i + 1) (mc + 1) hd
          simp only [List.length_cons]
          omega
        · split
          · have := ih (i + 1) mc (hd + 1)
            simp only [List.length_cons]
            omega
          · have := ih (i + 1) (mc + 1) (hd + 1)
            simp only [List.length_cons]
            omega

/-- The loop of maskString cannot break while the index is below both the
template length and the input length, so with enough fuel at least
`min mask.length s.length` characters are emitted. -/
lemma maskGo_length_ge (mask : List Char) (fill : Char) (s : List Char) :
    ∀ fuel i mc hd, min mask.length s.length ≤ fuel + i →
      min mask.length s.length ≤ i + (maskGo mask fill s fuel i mc hd).length := by
  intro fuel
  induction fuel with
  | zero => intro i mc hd hf; simpa [maskGo] using hf
  | succ n ih =>
    intro i mc hd hf
    simp only [maskGo]
    split
    · rename_i hbr
      simp only [List.length_nil]
      omega
    · rename_i hbr
      have hi : i < mask.length := by omega
      split
      · rename_i hc
        exfalso
        have : mask.length ≤ i := by
          simpa [charAt] using hc
        omega
      · rename_i c hc
        split
        · have := ih (i + 1) (mc + 1) hd (by omega)
          simp only [List.length_cons]
          omega
        · split
          · have := ih (i + 1) mc (hd + 1) (by omega)
            simp only [List.length_cons]
            omega
          · have := ih (i + 1) (mc + 1) (hd + 1) (by omega)
            simp only [List.length_cons]
            omega

/-- C2: with mask "(___) ___-____", fill symbol underscore, pattern [0-9] and
strict "true", masking the logical input "5551234567" yields exactly
"(555) 123-4567", and unmasking the display string "(555) 123-4567" yields
exactly "5551234567". -/
theorem phone_mask_example :
    maskString "(___) ___-____".data '_' (JSVal.str "true") "5551234567".data
        = "(555) 123-4567".data ∧
    getUnmaskedValue "(___) ___-____".data digitTest (JSVal.str "true")
        "(555) 123-4567".data = "5551234567".data :=
  ⟨by decide, by decide⟩

/-- C4 (evaluation at the failing input): even with the field's strict entry
set to "false", maskString truncates the logical input "12345" at the length
of the template "___", returning "123" — overflow is never appended, because
the local strict shadow of maskString is always true.  This contradicts the
claim that non-strict masking appends the overflow verbatim and yields output
of length at least length(L). -/
theorem nonstrict_overflow_truncated :
    maskString "___".data '_' (JSVal.str "false") "12345".data = "123".data ∧
    (maskString "___".data '_' (JSVal.str "false") "12345".data).length
        < "12345".data.length ∧
    maskString "___".data '_' (JSVal.bool false) "12345".data = "123".data :=
  ⟨by decide, by decide, by decide⟩

/-- C5: the masked output never exceeds the template length, and has length
at least `min (template length) (input length)`. -/
theorem maskString_length_bounds (mask : List Char) (fill : Char)
    (strictData : JSVal) (s : List Char)
    (hstrict : strictData = JSVal.str "true") :
    (maskString mask fill strictData s).length ≤ mask.length ∧
    min mask.length s.length ≤ (maskString mask fill strictData s).length := by
  rw [maskString_eq]
  constructor
  · have := maskGo_length_le mask fill s (max s.length mask.length) 0 0 0
    omega
  · have := maskGo_length_ge mask fill s (max s.length mask.length) 0 0 0 (by omega)
    omega

/-- C5 witness: the bounds evaluated at the phone template and input "555". -/
theorem maskString_length_bounds_witness :
    (JSVal.str "true" = JSVal.str "true") ∧
    ((maskString "(___) ___-____".data '_' (JSVal.str "true") "555".data).length
        ≤ "(___) ___-____".data.length ∧
      min "(___) ___-____".data.length "555".data.length
        ≤ (maskString "(___) ___-____".data '_' (JSVal.str "true") "555".data).length) :=
  ⟨rfl, maskString_length_bounds _ _ _ _ rfl⟩

/-- C8: an explicit boolean false for strict is replaced by the default true
in getDefaultData, and an explicit boolean false for autoinit is replaced by
true (which is truthy, so auto-initialization runs). -/
theorem explicit_false_overwritten (d : FieldData)
    (h : d.strict = JSVal.bool false) :
    (getDefaultData d).strict = JSVal.bool true ∧
    initAutoinit (JSVal.bool false) = JSVal.bool true ∧
    truthy (initAutoinit (JSVal.bool false)) = true := by
  refine ⟨?_, rfl, rfl⟩
  simp [getDefaultData, jsOr, h, truthy]

/-- C8 witness: a concrete configuration with strict explicitly false. -/
theorem explicit_false_overwritten_witness :
    (FieldData.mk (JSVal.str "(___)") (JSVal.str "[0-9]") (JSVal.bool false)).strict
        = JSVal.bool false ∧
    ((getDefaultData ⟨JSVal.str "(___)", JSVal.str "[0-9]", JSVal.bool false⟩).strict
          = JSVal.bool true ∧
      initAutoinit (JSVal.bool false) = JSVal.bool true ∧
      truthy (initAutoinit (JSVal.bool false)) = true) :=
  ⟨rfl, explicit_false_overwritten _ rfl⟩

/-- C10: when the stored data carries no strict entry, getDefaultData
substitutes the boolean true; since getUnmaskedValue compares strict against
the string "true", the defaulted configuration appends the slice of the
display string beyond the template length — it behaves non-strictly. -/
theorem defaulted_strict_appends_overflow (d : FieldData) (mask : List Char)
    (p : Char → Bool) (v : List Char) (hd : d.strict = JSVal.undef)
    (hv : mask.length < v.length) :
    (getDefaultData d).strict = JSVal.bool true ∧
    getUnmaskedValue mask p ((getDefaultData d).strict) v
        = getUnmaskedValue mask p (JSVal.str "true") v ++ v.drop mask.length ∧
    v.drop mask.length ≠ [] := by
  have hstrict : (getDefaultData d).strict = JSVal.bool true := by
    simp [getDefaultData, jsOr, hd, truthy]
  refine ⟨hstrict, ?_, ?_⟩
  · rw [hstrict]
    simp [getUnmaskedValue]
  · simp only [ne_eq, List.drop_eq_nil_iff]
    omega

/-- C10 witness: a field with no strict entry, mask "ab" and the longer
display string "abcd". -/
theorem defaulted_strict_appends_overflow_witness :
    (FieldData.mk (JSVal.str "ab") JSVal.undef JSVal.undef).strict = JSVal.undef ∧
    "ab".data.length < "abcd".data.length ∧
    getUnmaskedValue "ab".data digitTest
        ((getDefaultData ⟨JSVal.str "ab", JSVal.undef, JSVal.undef⟩).strict)
        "abcd".data
      = getUnmaskedValue "ab".data digitTest (JSVal.str "true") "abcd".data
          ++ "abcd".data.drop "ab".data.length :=
  ⟨rfl, by decide,
    (defaulted_strict_appends_overflow _ _ _ _ rfl (by decide)).2.1⟩

/-- When the display string is no longer than the template, the loop of
getUnmaskedValue keeps exactly the pattern-matching characters. -/
lemma unmaskGo_eq_filter (mask : List Char) (p : Char → Bool) (s : List Char)
    (hle : s.length ≤ mask.length) :
    ∀ fuel i, s.length ≤ fuel + i →
      unmaskGo mask p s fuel i = (s.drop i).filter p := by
  intro fuel
  induction fuel with
  | zero =>
    intro i hf
    rw [List.drop_eq_nil_of_le (by omega)]
    simp [unmaskGo]
  | succ n ih =>
    intro i hf
    simp only [unmaskGo]
    split
    · rename_i hc
      have hsi : s.length ≤ i := by simpa [charAt] using hc
      rw [List.drop_eq_nil_of_le hsi]
      simp
    · rename_i c hc
      have hc2 : s[i]? = some c := hc
      have hci : i < s.length := (List.getElem?_eq_some_iff.mp hc2).1
      have hm : i < mask.length := lt_of_lt_of_le hci hle
      rw [if_pos hm]
      have hgc : s[i] = c := by
        have := (List.getElem?_eq_getElem hci).symm.trans hc2
        exact Option.some.inj this
      have hdrop : s.drop i = c :: s.drop (i + 1) := by
        rw [List.drop_eq_getElem_cons hci, hgc]
      rw [hdrop, List.filter_cons, ih (i + 1) (by omega)]
      by_cases hp : p c
      · simp [hp]
      · simp [hp]

/-- Core invariant of the masking loop: starting from a state where the loop
index equals `mask_count + head`, as long as the remaining input fits into
the remaining placeholder positions, the loop emits the literal separators
(which fail the pattern) interleaved with the remaining input characters
(which match the pattern), and the fill-for-exhausted-input branch is never
reached.  Filtering the emitted characters by the pattern recovers exactly
the remaining input. -/
lemma maskGo_filter (mask : List Char) (fill : Char) (p : Char → Bool)
    (s : List Char)
    (hs : ∀ c ∈ s, p c = true) (hsep : ∀ c ∈ mask, c ≠ fill → p c = false) :
    ∀ fuel i mc head, i = mc + head → head ≤ s.length →
      s.length - head ≤ countFills (mask.drop i) fill →
      mask.length ≤ fuel + i →
      (maskGo mask fill s fuel i mc head).filter p = s.drop head := by
  intro fuel
  induction fuel with
  | zero =>
    intro i mc head hinv hh hcnt hf
    rw [List.drop_eq_nil_of_le (show mask.length ≤ i by omega)] at hcnt
    simp [countFills] at hcnt
    have hhead : head = s.length := by omega
    rw [List.drop_eq_nil_of_le (by omega)]
    simp [maskGo]
  | succ n ih =>
    intro i mc head hinv hh hcnt hf
    simp only [maskGo]
    split
    · rename_i hbr
      rcases hbr with hbr | hbr
      · rw [List.drop_eq_nil_of_le hbr] at hcnt
        simp [countFills] at hcnt
        rw [List.drop_eq_nil_of_le (by omega)]
        simp
      · rw [List.drop_eq_nil_of_le (by omega)]
        simp
    · rename_i hbr
      have hi : i < mask.length := by omega
      have his : i < s.length + mc := by omega
      split
      · rename_i hcm
        exfalso
        have : mask.length ≤ i := by simpa [charAt] using hcm
        omega
      · rename_i mch hcm
        have hcm2 : mask[i]? = some mch := hcm
        have hmem : mch ∈ mask := List.getElem?_mem hcm2
        have hgm : mask[i] = mch := by
          have := (List.getElem?_eq_getElem hi).symm.trans hcm2
          exact Option.some.inj this
        have hdropm : mask.drop i = mch :: mask.drop (i + 1) := by
          rw [List.drop_eq_getElem_cons hi, hgm]
        split
        · rename_i hne
          have hpf : p mch = false := hsep mch hmem hne
          rw [List.filter_cons, if_neg (by simp [hpf])]
          apply ih (i + 1) (mc + 1) head (by omega) hh ?_ (by omega)
          rw [hdropm] at hcnt
          simpa [countFills, List.filter_cons, hne] using hcnt
        · rename_i hne
          have heq : mch = fill := not_not.mp hne
          split
          · rename_i sc hsc
            have hsc2 : s[head]? = some sc := hsc
            have hsm : sc ∈ s := List.getElem?_mem hsc2
            have hpt : p sc = true := hs sc hsm
            have hhs : head < s.length := (List.getElem?_eq_some_iff.mp hsc2).1
            have hgs : s[head] = sc := by
              have := (List.getElem?_eq_getElem hhs).symm.trans hsc2
              exact Option.some.inj this
            have hdrops : s.drop head = sc :: s.drop (head + 1) := by
              rw [List.drop_eq_getElem_cons hhs, hgs]
            rw [hdrops, List.filter_cons, if_pos (by simp [hpt])]
            congr 1
            apply ih (i + 1) mc (head + 1) (by omega) (by omega) ?_ (by omega)
            rw [hdropm] at hcnt
            have : countFills (mch :: mask.drop (i + 1)) fill
                = countFills (mask.drop (i + 1)) fill + 1 := by
              simp [countFills, List.filter_cons, heq]
            omega
          · rename_i hsc
            exfalso
            have : s.length ≤ head := by simpa [charAt] using hsc
            omega

/-- C1: round-trip under strict mode.  For every template, fill symbol,
character class and logical input whose length is at most the number of
placeholder positions, if every input character matches the pattern and no
literal separator does, then unmasking the masked input recovers the input. -/
theorem roundtrip_strict (mask : List Char) (fill : Char) (p : Char → Bool)
    (s : List Char)
    (hlen : s.length ≤ countFills mask fill)
    (hs : ∀ c ∈ s, p c = true)
    (hsep : ∀ c ∈ mask, c ≠ fill → p c = false) :
    getUnmaskedValue mask p (JSVal.str "true")
        (maskString mask fill (JSVal.str "true") s) = s := by
  have hle : (maskString mask fill (JSVal.str "true") s).length ≤ mask.length :=
    (maskString_length_bounds mask fill _ s rfl).1
  have hfilter : (maskString mask fill (JSVal.str "true") s).filter p = s := by
    rw [maskString_eq]
    have := maskGo_filter mask fill p s hs hsep
      (max s.length mask.length) 0 0 0 rfl (Nat.zero_le _)
      (by simpa using hlen) (by omega)
    simpa using this
  rw [getUnmaskedValue_strict_true,
    unmaskGo_eq_filter mask p _ hle _ 0 (by omega)]
  simpa using hfilter

/-- C1 witness: the round-trip at the phone template with the digit class and
input "5551234567". -/
theorem roundtrip_strict_witness :
    "5551234567".data.length ≤ countFills "(___) ___-____".data '_' ∧
    (∀ c ∈ "5551234567".data, digitTest c = true) ∧
    (∀ c ∈ "(___) ___-____".data, c ≠ '_' → digitTest c = false) ∧
    getUnmaskedValue "(___) ___-____".data digitTest (JSVal.str "true")
        (maskString "(___) ___-____".data '_' (JSVal.str "true")
          "5551234567".data)
      = "5551234567".data :=
  ⟨by decide, by decide, by decide,
    roundtrip_strict _ _ _ _ (by decide) (by decide) (by decide)⟩

/-! Facts about the separator walks and the key handlers. -/

/-- At a positive caret the negative-index guard of charAtZ is vacuous. -/
lemma charAtZ_sub_one (m : List Char) (cp : Nat) (hcp : 1 ≤ cp) :
    charAtZ m ((cp : Int) - 1) = charAt m (cp - 1) := by
  unfold charAtZ
  rw [if_neg (by omega)]
  congr 1
  omega

/-- The backward walk never moves the caret forward. -/
lemma bkspWalk_le (m : List Char) (f : Char) : ∀ n, bkspWalk m f n ≤ n := by
  intro n
  induction n with
  | zero => simp [bkspWalk]
  | succ q ih =>
    simp only [bkspWalk]
    split
    · omega
    · omega

/-- The backward walk stops at index 0 or just after a fill-symbol position. -/
lemma bkspWalk_stop (m : List Char) (f : Char) :
    ∀ n, bkspWalk m f n = 0 ∨ charAt m (bkspWalk m f n - 1) = some f := by
  intro n
  induction n with
  | zero => left; rfl
  | succ q ih =>
    simp only [bkspWalk]
    split
    · exact ih
    · rename_i h
      right
      simpa using not_not.mp h

/-- Every template position skipped by the backward walk is a separator. -/
lemma bkspWalk_run (m : List Char) (f : Char) :
    ∀ n j, bkspWalk m f n ≤ j → j < n → charAt m j ≠ some f := by
  intro n
  induction n with
  | zero => intro j h1 h2; omega
  | succ q ih =>
    intro j h1 h2
    by_cases hc : charAt m q ≠ some f
    · rw [bkspWalk, if_pos hc] at h1
      by_cases hj : j < q
      · exact ih j h1 hj
      · have : j = q := by omega
        subst this
        exact hc
    · rw [bkspWalk, if_neg hc] at h1
      omega

/-- When the template character before the caret is a separator, the backward
walk strictly decreases the caret. -/
lemma bkspWalk_lt (m : List Char) (f : Char) (cp : Nat) (hcp : 1 ≤ cp)
    (hsep : charAt m (cp - 1) ≠ some f) : bkspWalk m f cp < cp := by
  obtain ⟨q, rfl⟩ : ∃ q, cp = q + 1 := ⟨cp - 1, by omega⟩
  simp only [bkspWalk]
  rw [if_pos (by simpa using hsep)]
  exact Nat.lt_succ_of_le (bkspWalk_le m f q)

/-- C3 (evaluation at the failing input): on the empty template the forward
separator walk of the Delete branch never terminates — after any number of
iterations the loop has not exited, because every template read yields
undefined, which differs from the fill symbol; accordingly the key-down
dispatch for Delete on an empty template has no result. -/
theorem delete_walk_diverges :
    (∀ fuel pos, delLoopFuel ([] : List Char) '_' fuel pos = none) ∧
    onKeyDown ⟨[], '_', digitTest, JSVal.str "true"⟩ 0 false
        ⟨"Delete", false, false⟩ ⟨[], some 0⟩ = none := by
  constructor
  · intro fuel
    induction fuel with
    | zero => intro pos; rfl
    | succ n ih =>
      intro pos
      simp [delLoopFuel, charAt, ih]
  · rfl

/-- C6: with the re-entrancy latch clear, a Backspace key-down at a caret
that sits immediately after a separator run walks back over the run
(stopping at 0 at the latest), deletes from the character before the run
start through the caret, reformats the resulting value, repositions the
caret at the run start, and suppresses the default handling. -/
theorem backspace_separator_run (cfg : MaskCfg) (rangeCount : Nat)
    (ev : KeyEvent) (el : ElemState) (cp : Nat)
    (hkey : ev.key = "Backspace") (hcaret : el.caret = some cp) (hcp : 1 ≤ cp)
    (hsep : charAt cfg.mask (cp - 1) ≠ some cfg.fill) :
    onKeyDown cfg rangeCount false ev el =
      some ⟨maskString cfg.mask cfg.fill cfg.strict
              (getUnmaskedValue cfg.mask cfg.pattern cfg.strict
                (el.value.take (bkspWalk cfg.mask cfg.fill cp - 1)
                  ++ el.value.drop cp)),
            some (bkspWalk cfg.mask cfg.fill cp), true, false⟩ ∧
    bkspWalk cfg.mask cfg.fill cp < cp ∧
    (bkspWalk cfg.mask cfg.fill cp = 0 ∨
      charAt cfg.mask (bkspWalk cfg.mask cfg.fill cp - 1) = some cfg.fill) ∧
    (∀ j, bkspWalk cfg.mask cfg.fill cp ≤ j → j < cp →
      charAt cfg.mask j ≠ some cfg.fill) := by
  have hlt := bkspWalk_lt cfg.mask cfg.fill cp hcp hsep
  refine ⟨?_, hlt, bkspWalk_stop _ _ _, fun j h1 h2 => bkspWalk_run _ _ _ j h1 h2⟩
  have hz : charAtZ cfg.mask ((cp : Int) - 1) ≠ some cfg.fill := by
    rw [charAtZ_sub_one _ _ hcp]
    exact hsep
  have hoff : cp - bkspWalk cfg.mask cfg.fill cp ≠ 0 := by omega
  have hpc : bkspWalk cfg.mask cfg.fill cp + (cp - bkspWalk cfg.mask cfg.fill cp)
      = cp := by omega
  have hnavb : decide (("Backspace" : String) ∈ navKeys) = true := by decide
  simp only [onKeyDown, hcaret, hkey, Bool.false_eq_true, if_false]
  rw [if_pos ⟨trivial, hz⟩]
  rw [if_pos hoff]
  simp only [hpc, hnavb, Bool.not_true]

/-- C6 witness: Backspace at caret 6 of "(555) " under the phone template;
the walk stops at position 4, the run start. -/
theorem backspace_separator_run_witness :
    charAt "(___) ___-____".data 5 ≠ some '_' ∧
    onKeyDown ⟨"(___) ___-____".data, '_', digitTest, JSVal.str "true"⟩ 0 false
        ⟨"Backspace", false, false⟩ ⟨"(555) ".data, some 6⟩
      = some ⟨"(55".data, some 4, true, false⟩ :=
  ⟨by decide, by
    have h := (backspace_separator_run
      ⟨"(___) ___-____".data, '_', digitTest, JSVal.str "true"⟩ 0
      ⟨"Backspace", false, false⟩ ⟨"(555) ".data, some 6⟩ 6
      rfl rfl (by decide) (by decide)).1
    rw [h]
    decide⟩

/-- C7: a key that is neither a navigation key nor modified by ctrl/shift and
whose key string fails the pattern test is suppressed and leaves the value
(and the caret) unchanged, for every caret position and strict setting. -/
theorem pattern_reject_suppresses (cfg : MaskCfg) (rangeCount : Nat)
    (wait : Bool) (ev : KeyEvent) (el : ElemState)
    (hnav : ev.key ∉ navKeys)
    (hctrl : ev.ctrlKey = false) (hshift : ev.shiftKey = false)
    (hpat : regexTest cfg.pattern ev.key = false) :
    onKeyDown cfg rangeCount wait ev el
      = some ⟨el.value, el.caret, true, true⟩ := by
  have hne : ev.key ≠ "Backspace" ∧ ev.key ≠ "Delete" ∧ ev.key ≠ "ArrowLeft" ∧
      ev.key ≠ "ArrowRight" := by
    simp [navKeys] at hnav
    tauto
  have hmem : decide (ev.key ∈ navKeys) = false := decide_eq_false hnav
  cases hw : wait with
  | true => simp [onKeyDown]
  | false =>
    rcases el with ⟨v, c⟩
    cases c with
    | none =>
      simp [onKeyDown, hctrl, hshift, hpat, hmem]
    | some cp =>
      simp [onKeyDown, hctrl, hshift, hpat, hmem, hne.1, hne.2.1, hne.2.2.1,
        hne.2.2.2]

/-- C7 witness: the letter key "x" against the digit class. -/
theorem pattern_reject_suppresses_witness :
    "x" ∉ navKeys ∧ regexTest digitTest "x" = false ∧
    onKeyDown ⟨"(___)".data, '_', digitTest, JSVal.str "true"⟩ 0 false
        ⟨"x", false, false⟩ ⟨"(1".data, some 2⟩
      = some ⟨"(1".data, some 2, true, true⟩ :=
  ⟨by decide, by decide,
    pattern_reject_suppresses _ _ _ _ _ (by decide) rfl rfl (by decide)⟩

/-- C9: every execution path of the key-up handler clears the wait latch, and
a key-down that arrives while the latch is set suppresses the key and leaves
the value, the caret and the latch unchanged. -/
theorem wait_latch_invariant :
    (∀ (cfg : MaskCfg) (ev : KeyEvent) (el : ElemState),
        (onKeyUp cfg ev el).wait = false) ∧
    (∀ (cfg : MaskCfg) (rangeCount : Nat) (ev : KeyEvent) (el : ElemState),
        onKeyDown cfg rangeCount true ev el
          = some ⟨el.value, el.caret, true, true⟩) := by
  constructor
  · intro cfg ev el
    unfold onKeyUp
    dsimp only
    repeat' split
    all_goals rfl
  · intro cfg rangeCount ev el
    rfl

end MyInputMask
